import Mathlib

/-
Shallow embedding of `src/Portfolio_Exercise.py`.

The source is a single Python file defining `Stock` and `Portfolio`.
Python `Decimal` values are modelled as `Rat` (exact decimal fractions are
exact rationals; every arithmetic step appearing in the claims is exact, so
no context-precision rounding is involved).  Python `dict`s are modelled as
insertion-ordered association lists.  Raised exceptions are modelled with
`Except PyError`.

The embedding has two layers:

1. `Lit.*` — the file as written, under Python runtime semantics.  The
   source contains four call-level slips, each contradicting the adjacent
   comments of the source itself:
   - `Stock.__init__` (line 135) tests `str not in price_table.keys()`,
     membership of the builtin *type object* `str` among the keys, instead
     of `stock_id`; for a table keyed by strings this always raises
     `KeyError`.
   - `Stock.__hash__` / `Stock.__eq__` (lines 160, 165) call `self.id()`
     although `id` is a `@property`, so `self.id` is already the string and
     calling it raises `TypeError`.
   - `Portfolio.__init__` (line 183) calls `stock_allocation.values().sum()`;
     `dict_values` has no attribute `sum`, so this raises `AttributeError`
     (and line 189 passes the keyword `value=` to `dict.fromkeys`, which
     takes no keyword arguments, so it would raise `TypeError` next).
   - `Portfolio.rebalance` (lines 210, 217) calls `stock.price()` although
     `price` is a `@property`, so the `Decimal` value is called, raising
     `TypeError`.

2. `IdKeyed.*` — the same method bodies under the dictionary and attribute
   semantics that the source comments document as intended (lines 149-158:
   dictionaries are to be keyed by the stock id; `price` and `id` read as
   properties; the allocation percentages are summed; the collection starts
   with every allocation key mapped to zero).  This layer exposes the logic
   of the methods — validation order, missing checks, insertion behaviour,
   price-query counts — which is unreachable in the literal layer because
   every call raises first.
-/

namespace PortfolioExercise

/-- Python exceptions raised by the modelled code. -/
inductive PyError where
  | keyError (msg : String)
  | typeError (msg : String)
  | valueError (msg : String)
  | attributeError (msg : String)
  | divisionByZero
  | invalidOperation
deriving DecidableEq

/-- A Python value usable as a key of the price table.  `kStr s` is the
string `s`; `kTypeStr` is the builtin type object `str`, which line 135 of
the source tests for membership among the keys. -/
inductive PyKey where
  | kStr (s : String)
  | kTypeStr
deriving DecidableEq

/-- `Stock`: the id string `_id` and the reference `_price_table`. -/
structure Stock where
  id : String
  price_table : List (PyKey × Rat)
deriving DecidableEq

/-- `Portfolio`: the allocation dict and the collection (held amounts) dict,
as insertion-ordered association lists with `Stock` keys. -/
structure Portfolio where
  stock_allocation : List (Stock × Rat)
  stock_collection : List (Stock × Rat)
deriving DecidableEq

/-- Lookup in the price table (`self._price_table[k]`). -/
def alistGet : List (PyKey × Rat) → PyKey → Option Rat
  | [], _ => none
  | e :: rest, k => if e.1 = k then some e.2 else alistGet rest k

/-- Lookup in a stock-keyed dict under id-keyed hashing (the semantics the
source comments at lines 149-158 specify for `__hash__` / `__eq__`). -/
def dget : List (Stock × Rat) → Stock → Option Rat
  | [], _ => none
  | e :: rest, k => if e.1.id = k.id then some e.2 else dget rest k

/-- Store into a stock-keyed dict under id-keyed hashing.  As in Python,
an update keeps the original key object and its position; a new key is
appended in insertion order. -/
def dset : List (Stock × Rat) → Stock → Rat → List (Stock × Rat)
  | [], k, v => [(k, v)]
  | e :: rest, k, v =>
    if e.1.id = k.id then (e.1, v) :: rest else e :: dset rest k v

/-- Python `Decimal` division: `a / b` raises `DivisionByZero` for
`a ≠ 0, b = 0` and `InvalidOperation` for `0 / 0`; otherwise it is exact
here (all divisions reached by the claims are exact). -/
def decDiv (a b : Rat) : Except PyError Rat :=
  if b = 0 then
    (if a = 0 then .error .invalidOperation else .error .divisionByZero)
  else .ok (a / b)

/-- Exact sum of a list of decimals (the intent of line 183 and the
evaluation of `sum(...)` at line 209). -/
def sumVals : List Rat → Rat
  | [] => 0
  | v :: rest => v + sumVals rest

/-- The ids of the keys of a stock-keyed dict, in order. -/
def idsOf (d : List (Stock × Rat)) : List String :=
  d.map (fun e => e.1.id)

/-- `any(perc < 0 for perc in stock_allocation.values())` (line 179). -/
def anyNeg : List Rat → Bool
  | [] => false
  | v :: rest => if v < 0 then true else anyNeg rest

namespace Lit

/-- Python semantics of calling a `Decimal` value: `TypeError`.  Models the
call in `stock.price()` (lines 210, 217), where `price` is a property and
`stock.price` is already the `Decimal`. -/
def callDecimal (_v : Rat) : Except PyError Rat :=
  .error (.typeError "Decimal object is not callable")

/-- Python semantics of calling a `str` value: `TypeError`.  Models the call
in `self.id()` (lines 160, 165), where `id` is a property and `self.id` is
already the string. -/
def callStr (_s : String) : Except PyError String :=
  .error (.typeError "str object is not callable")

/-- `Stock.__init__` (lines 134-139): `if str not in price_table.keys()`
raises `KeyError`; note the membership test is of the type object `str`
(`PyKey.kTypeStr`), not of `stock_id`. -/
def Stock.init (stock_id : String) (price_table : List (PyKey × Rat)) :
    Except PyError Stock :=
  if (price_table.map Prod.fst).contains PyKey.kTypeStr then
    .ok ⟨stock_id, price_table⟩
  else
    .error (.keyError "This Stock ID is not present in its price table")

/-- The `price` property getter (line 147): `self._price_table[self.id]`. -/
def Stock.priceProp (s : Stock) : Except PyError Rat :=
  match alistGet s.price_table (PyKey.kStr s.id) with
  | some p => .ok p
  | none => .error (.keyError s.id)

/-- `stock.price()` as written at lines 210 and 217: evaluate the property,
then call the resulting `Decimal`. -/
def Stock.priceCall (s : Stock) : Except PyError Rat :=
  match Stock.priceProp s with
  | .ok p => callDecimal p
  | .error e => .error e

/-- `Stock.__hash__` (line 160): `hash(self.id())` — the inner call of the
string raises before `hash` is applied. -/
def Stock.hashCall (s : Stock) : Except PyError String :=
  callStr s.id

/-- `Stock.__eq__` (line 165): `self.id() == value.id()`. -/
def Stock.eqCall (s v : Stock) : Except PyError Bool :=
  match callStr s.id with
  | .error e => .error e
  | .ok a =>
    match callStr v.id with
    | .error e => .error e
    | .ok b => .ok (a == b)

/-- Reading a stock-keyed dict entry under literal semantics: the key is
hashed first (`Stock.__hash__`), which raises; the id-keyed probe below is
unreachable. -/
def stockDictGet (d : List (Stock × Rat)) (k : Stock) : Except PyError Rat :=
  match Stock.hashCall k with
  | .error e => .error e
  | .ok _ =>
    match dget d k with
    | some v => .ok v
    | none => .error (.keyError k.id)

/-- `stock_allocation.values().sum()` (line 183): `dict_values` has no
attribute `sum`, so the attribute access raises before any summation. -/
def valuesSum (_vs : List Rat) : Except PyError Rat :=
  .error (.attributeError "dict_values object has no attribute sum")

/-- `dict.fromkeys(keys, value=...)` (lines 189-191): `dict.fromkeys` takes
no keyword arguments, so the call raises `TypeError`. -/
def fromkeysValueKw (_ks : List Stock) (_v : Rat) :
    Except PyError (List (Stock × Rat)) :=
  .error (.typeError "fromkeys takes no keyword arguments")

/-- `Portfolio.__init__` (lines 177-191) under literal semantics: the
negativity check runs first and can raise `ValueError`; the sum check then
raises `AttributeError` on every input; the rest is unreachable. -/
def Portfolio.init (stock_allocation : List (Stock × Rat)) :
    Except PyError Portfolio :=
  if anyNeg (stock_allocation.map Prod.snd) then
    .error (.valueError "Allocation percentages must be positive")
  else
    match valuesSum (stock_allocation.map Prod.snd) with
    | .error e => .error e
    | .ok s =>
      if s ≠ 1 then .error (.valueError "Allocation percentages must add to 1")
      else
        match fromkeysValueKw (stock_allocation.map Prod.fst) 0 with
        | .error e => .error e
        | .ok coll => .ok ⟨stock_allocation, coll⟩

/-- The generator of line 209-211, summed left to right:
`stock.price() * self.stock_collection[stock]` per tracked stock. -/
def totalPass (coll : List (Stock × Rat)) : List Stock → Except PyError Rat
  | [] => .ok 0
  | s :: rest =>
    match Stock.priceCall s with
    | .error e => .error e
    | .ok pr =>
      match stockDictGet coll s with
      | .error e => .error e
      | .ok q =>
        match totalPass coll rest with
        | .error e => .error e
        | .ok t => .ok (pr * q + t)

/-- The loop of lines 215-218 under literal semantics. -/
def changesPass (alloc coll : List (Stock × Rat)) (total : Rat) :
    List Stock → List (Stock × Rat) → Except PyError (List (Stock × Rat))
  | [], acc => .ok acc
  | s :: rest, acc =>
    match stockDictGet alloc s with
    | .error e => .error e
    | .ok a =>
      match Stock.priceCall s with
      | .error e => .error e
      | .ok pr =>
        match decDiv (total * a) pr with
        | .error e => .error e
        | .ok rq =>
          match stockDictGet coll s with
          | .error e => .error e
          | .ok q => changesPass alloc coll total rest (dset acc s (rq - q))

/-- `Portfolio.rebalance` (lines 206-220) under literal semantics. -/
def Portfolio.rebalance (p : Portfolio) : Except PyError (List (Stock × Rat)) :=
  let stocks := p.stock_allocation.map Prod.fst
  match totalPass p.stock_collection stocks with
  | .error e => .error e
  | .ok total => changesPass p.stock_allocation p.stock_collection total stocks []

end Lit

namespace IdKeyed

/-- The `price` property (line 147) read as a property:
`self._price_table[self.id]`, a fresh table lookup on every use. -/
def Stock.price (s : Stock) : Except PyError Rat :=
  match alistGet s.price_table (PyKey.kStr s.id) with
  | some p => .ok p
  | none => .error (.keyError s.id)

/-- `Portfolio.__init__` (lines 177-191) with the summation performed
(line 182 comment: the sum of the allocations must be 100 percent) and the
collection initialised to zero for every allocation key (lines 188-191). -/
def Portfolio.init (stock_allocation : List (Stock × Rat)) :
    Except PyError Portfolio :=
  if anyNeg (stock_allocation.map Prod.snd) then
    .error (.valueError "Allocation percentages must be positive")
  else if sumVals (stock_allocation.map Prod.snd) ≠ 1 then
    .error (.valueError "Allocation percentages must add to 1")
  else
    .ok ⟨stock_allocation, stock_allocation.map (fun e => (e.1, (0 : Rat)))⟩

/-- `Portfolio.add_stock_amount` (lines 193-196).  The negativity check runs
first; then `self.stock_collection[stock] += amount` reads the entry
(`KeyError` for an untracked stock) and stores the sum.  The pair is
(raised-or-returned result, state of the object afterwards). -/
def Portfolio.add_stock_amount (p : Portfolio) (stock : Stock) (amount : Rat) :
    Except PyError Unit × Portfolio :=
  if amount < 0 then
    (.error (.valueError "Amount must be greater than zero"), p)
  else
    match dget p.stock_collection stock with
    | none => (.error (.keyError stock.id), p)
    | some q =>
      (.ok (), ⟨p.stock_allocation, dset p.stock_collection stock (q + amount)⟩)

/-- `Portfolio.rem_stock_amount` (lines 198-201).  The entry is read
(`KeyError` for an untracked stock), the amount is compared against it —
there is no check that `amount` is non-negative — and the difference is
stored. -/
def Portfolio.rem_stock_amount (p : Portfolio) (stock : Stock) (amount : Rat) :
    Except PyError Unit × Portfolio :=
  match dget p.stock_collection stock with
  | none => (.error (.keyError stock.id), p)
  | some q =>
    if amount > q then
      (.error (.valueError "Cannot remove more stock than what we have"), p)
    else
      (.ok (), ⟨p.stock_allocation, dset p.stock_collection stock (q - amount)⟩)

/-- `Portfolio.set_stock_to_zero` (lines 203-204):
`self.stock_collection[stock] = Decimal("0.0")` — a plain store, which
inserts the key when it is not yet present; there is no tracked-stock
check. -/
def Portfolio.set_stock_to_zero (p : Portfolio) (stock : Stock) :
    Except PyError Unit × Portfolio :=
  (.ok (), ⟨p.stock_allocation, dset p.stock_collection stock 0⟩)

/-- The sum of lines 209-211, with a trace of the price-table queries made
(each evaluation of the `price` property logs the id it looks up, whether or
not the lookup succeeds). -/
def totalPass (coll : List (Stock × Rat)) :
    List Stock → Except PyError Rat × List String
  | [] => (.ok 0, [])
  | s :: rest =>
    match Stock.price s with
    | .error e => (.error e, [s.id])
    | .ok pr =>
      match dget coll s with
      | none => (.error (.keyError s.id), [s.id])
      | some q =>
        match totalPass coll rest with
        | (.ok t, tr) => (.ok (pr * q + t), s.id :: tr)
        | (.error e, tr) => (.error e, s.id :: tr)

/-- The loop of lines 215-218: per stock, read the allocation entry, query
the price again (logged), divide, read the collection entry, store the
change. -/
def changesPass (alloc coll : List (Stock × Rat)) (total : Rat) :
    List Stock → List (Stock × Rat) →
      Except PyError (List (Stock × Rat)) × List String
  | [], acc => (.ok acc, [])
  | s :: rest, acc =>
    match dget alloc s with
    | none => (.error (.keyError s.id), [])
    | some a =>
      match Stock.price s with
      | .error e => (.error e, [s.id])
      | .ok pr =>
        match decDiv (total * a) pr with
        | .error e => (.error e, [s.id])
        | .ok rq =>
          match dget coll s with
          | none => (.error (.keyError s.id), [s.id])
          | some q =>
            match changesPass alloc coll total rest (dset acc s (rq - q)) with
            | (r, tr) => (r, s.id :: tr)

/-- `Portfolio.rebalance` (lines 206-220), paired with the full trace of
price-table queries made during the call. -/
def Portfolio.rebalanceT (p : Portfolio) :
    Except PyError (List (Stock × Rat)) × List String :=
  let stocks := p.stock_allocation.map Prod.fst
  match totalPass p.stock_collection stocks with
  | (.error e, tr) => (.error e, tr)
  | (.ok total, tr1) =>
    match changesPass p.stock_allocation p.stock_collection total stocks [] with
    | (r, tr2) => (r, tr1 ++ tr2)

/-- `Portfolio.rebalance` without the instrumentation. -/
def Portfolio.rebalance (p : Portfolio) : Except PyError (List (Stock × Rat)) :=
  (Portfolio.rebalanceT p).1

/-- The mutating interface of `Portfolio`, for statements over arbitrary
sequences of operations. -/
inductive Op where
  | add (stock : Stock) (amount : Rat)
  | rem (stock : Stock) (amount : Rat)
  | zero (stock : Stock)
  | reb
deriving DecidableEq

/-- One call of the corresponding method: the raised-or-returned result and
the state of the `Portfolio` afterwards (`rebalance` mutates nothing). -/
def step (p : Portfolio) : Op → Except PyError Unit × Portfolio
  | .add stock amount => Portfolio.add_stock_amount p stock amount
  | .rem stock amount => Portfolio.rem_stock_amount p stock amount
  | .zero stock => Portfolio.set_stock_to_zero p stock
  | .reb =>
    match Portfolio.rebalance p with
    | .ok _ => (.ok (), p)
    | .error e => (.error e, p)

/-- Run a sequence of operations, keeping the state each call leaves behind
(raised errors are scoped to the single call). -/
def runOps (p : Portfolio) : List Op → Portfolio
  | [] => p
  | o :: rest => runOps (step p o).2 rest

/-- The held-quantity state invariant of the claim: every held amount is
non-negative and every allocation key is tracked in the collection. -/
def Inv (p : Portfolio) : Prop :=
  (∀ e ∈ p.stock_collection, (0 : Rat) ≤ e.2) ∧
    (∀ e ∈ p.stock_allocation, e.1.id ∈ idsOf p.stock_collection)

instance (p : Portfolio) : Decidable (Inv p) := by
  unfold Inv idsOf
  infer_instance

end IdKeyed

/-! Concrete fixtures: the example scenario of the specification.  One price
table holding `A` at 100 and `B` at 50 (both keys are strings, as in any
real table); stocks `A`, `B`; allocation 40 percent / 60 percent; held
quantities 10 and 0. -/

/-- The price table of the example scenario. -/
def tableAB : List (PyKey × Rat) :=
  [(PyKey.kStr "A", 100), (PyKey.kStr "B", 50)]

/-- Stock `A` of the example scenario. -/
def stockA : Stock := ⟨"A", tableAB⟩

/-- Stock `B` of the example scenario. -/
def stockB : Stock := ⟨"B", tableAB⟩

/-- The example portfolio: allocation `{A: 0.4, B: 0.6}`, held
`{A: 10, B: 0}`. -/
def exPortfolio : Portfolio :=
  ⟨[(stockA, 2/5), (stockB, 3/5)], [(stockA, 10), (stockB, 0)]⟩

/-- The allocation of the example scenario, as the constructor input. -/
def allocEx : List (Stock × Rat) := [(stockA, 2/5), (stockB, 3/5)]

/-- The portfolio the example allocation constructs: every held quantity is
still at its initial value of zero. -/
def freshPortfolio : Portfolio := ⟨allocEx, [(stockA, 0), (stockB, 0)]⟩

/-- A price table holding `B` at price zero. -/
def tableZeroB : List (PyKey × Rat) :=
  [(PyKey.kStr "A", 100), (PyKey.kStr "B", 0)]

/-- Stock `A` backed by the zero-price table. -/
def stockZA : Stock := ⟨"A", tableZeroB⟩

/-- Stock `B`, priced zero in its table. -/
def stockZB : Stock := ⟨"B", tableZeroB⟩

/-- A portfolio in which tracked stock `B` has price zero. -/
def pZero : Portfolio :=
  ⟨[(stockZA, 1/2), (stockZB, 1/2)], [(stockZA, 10), (stockZB, 0)]⟩

/-- The same portfolio shape with both prices nonzero. -/
def pHalf : Portfolio :=
  ⟨[(stockA, 1/2), (stockB, 1/2)], [(stockA, 10), (stockB, 0)]⟩

/-- A portfolio tracking only `A`, with nothing held. -/
def pOnlyA : Portfolio := ⟨[(stockA, 1)], [(stockA, 0)]⟩

/-- A portfolio tracking only `A`, holding 10 of it. -/
def pTenA : Portfolio := ⟨[(stockA, 1)], [(stockA, 10)]⟩

/-! Shared lemmas about the dictionary model and the instrumented
rebalance. -/

theorem dget_dset_self (d : List (Stock × Rat)) (k : Stock) (v : Rat) :
    dget (dset d k v) k = some v := by
  induction d with
  | nil => simp [dget, dset]
  | cons e rest ih =>
    by_cases h : e.1.id = k.id
    · simp [dget, dset, h]
    · simp [dget, dset, h, ih]

theorem mem_idsOf_dset (d : List (Stock × Rat)) (k : Stock) (v : Rat)
    (i : String) (h : i ∈ idsOf d) : i ∈ idsOf (dset d k v) := by
  induction d with
  | nil => simp [idsOf] at h
  | cons e rest ih =>
    by_cases he : e.1.id = k.id
    · simpa [idsOf, dset, he] using h
    · simp only [idsOf, dset, he, if_false, List.map_cons, List.mem_cons] at h ⊢
      rcases h with h | h
      · exact Or.inl h
      · exact Or.inr (ih h)

theorem dset_values {P : Rat → Prop} (d : List (Stock × Rat)) (k : Stock)
    (v : Rat) (hd : ∀ e ∈ d, P e.2) (hv : P v) :
    ∀ e ∈ dset d k v, P e.2 := by
  induction d with
  | nil => simpa [dset] using hv
  | cons e rest ih =>
    by_cases he : e.1.id = k.id
    · intro x hx
      simp only [dset, he, if_true, List.mem_cons] at hx
      rcases hx with hx | hx
      · simpa [hx] using hv
      · exact hd x (List.mem_cons_of_mem _ hx)
    · intro x hx
      simp only [dset, he, if_false, List.mem_cons] at hx
      rcases hx with hx | hx
      · exact hx ▸ hd e (List.mem_cons_self _ _)
      · exact ih (fun y hy => hd y (List.mem_cons_of_mem _ hy)) x hx

theorem dget_some_mem (d : List (Stock × Rat)) (k : Stock) (q : Rat)
    (h : dget d k = some q) : ∃ e ∈ d, e.2 = q := by
  induction d with
  | nil => simp [dget] at h
  | cons e rest ih =>
    by_cases he : e.1.id = k.id
    · refine ⟨e, List.mem_cons_self _ _, ?_⟩
      simpa [dget, he] using h
    · simp only [dget, he, if_false] at h
      obtain ⟨x, hx, hxq⟩ := ih h
      exact ⟨x, List.mem_cons_of_mem _ hx, hxq⟩

theorem totalPass_ok_trace (stocks : List Stock) (coll : List (Stock × Rat))
    (v : Rat) (tr : List String)
    (h : IdKeyed.totalPass coll stocks = (.ok v, tr)) :
    tr = stocks.map Stock.id := by
  induction stocks generalizing v tr with
  | nil =>
    simp only [IdKeyed.totalPass, Prod.mk.injEq] at h
    simp [h.2.symm]
  | cons s rest ih =>
    simp only [IdKeyed.totalPass] at h
    rcases hp : IdKeyed.Stock.price s with e | pr
    · simp [hp] at h
    · rw [hp] at h
      rcases hq : dget coll s with _ | q
      · simp [hq] at h
      · rw [hq] at h
        rcases ht : IdKeyed.totalPass coll rest with ⟨res, tr2⟩
        rcases res with e | t
        · simp [ht] at h
        · rw [ht] at h
          simp only [Prod.mk.injEq] at h
          simp [List.map_cons, ← h.2, ih t tr2 (by rw [ht])]

theorem changesPass_ok_trace (stocks : List Stock)
    (alloc coll : List (Stock × Rat)) (total : Rat)
    (acc r : List (Stock × Rat)) (tr : List String)
    (h : IdKeyed.changesPass alloc coll total stocks acc = (.ok r, tr)) :
    tr = stocks.map Stock.id := by
  induction stocks generalizing acc r tr with
  | nil =>
    simp only [IdKeyed.changesPass, Prod.mk.injEq] at h
    simp [h.2.symm]
  | cons s rest ih =>
    simp only [IdKeyed.changesPass] at h
    rcases ha : dget alloc s with _ | a
    · simp [ha] at h
    · simp only [ha] at h
      rcases hp : IdKeyed.Stock.price s with e | pr
      · simp [hp] at h
      · simp only [hp] at h
        rcases hdv : decDiv (total * a) pr with e | rq
        · simp [hdv] at h
        · simp only [hdv] at h
          rcases hq : dget coll s with _ | q
          · simp [hq] at h
          · simp only [hq] at h
            rcases hc : IdKeyed.changesPass alloc coll total rest
                (dset acc s (rq - q)) with ⟨res, tr2⟩
            simp only [hc] at h
            rcases res with e | r2
            · simp at h
            · simp only [Prod.mk.injEq] at h
              simp [List.map_cons, ← h.2, ih (dset acc s (rq - q)) r2 tr2 hc]

theorem step_preserves_inv (p : Portfolio) (op : IdKeyed.Op)
    (h : IdKeyed.Inv p) : IdKeyed.Inv (IdKeyed.step p op).2 := by
  cases op with
  | add stock amount =>
    by_cases hneg : amount < 0
    · simpa [IdKeyed.step, IdKeyed.Portfolio.add_stock_amount, hneg] using h
    · rcases hq : dget p.stock_collection stock with _ | q
      · simpa [IdKeyed.step, IdKeyed.Portfolio.add_stock_amount, hneg, hq]
          using h
      · have hq0 : (0 : Rat) ≤ q := by
          obtain ⟨e, he, heq⟩ := dget_some_mem _ _ _ hq
          exact heq ▸ h.1 e he
        constructor
        · simp only [IdKeyed.step, IdKeyed.Portfolio.add_stock_amount, hneg,
            hq, if_false]
          exact dset_values _ _ _ h.1 (add_nonneg hq0 (not_lt.mp hneg))
        · intro e he
          simp only [IdKeyed.step, IdKeyed.Portfolio.add_stock_amount, hneg,
            hq, if_false] at he ⊢
          exact mem_idsOf_dset _ _ _ _ (h.2 e he)
  | rem stock amount =>
    rcases hq : dget p.stock_collection stock with _ | q
    · simpa [IdKeyed.step, IdKeyed.Portfolio.rem_stock_amount, hq] using h
    · by_cases hgt : q < amount
      · simpa [IdKeyed.step, IdKeyed.Portfolio.rem_stock_amount, hq, hgt]
          using h
      · have hq0 : (0 : Rat) ≤ q := by
          obtain ⟨e, he, heq⟩ := dget_some_mem _ _ _ hq
          exact heq ▸ h.1 e he
        constructor
        · simp only [IdKeyed.step, IdKeyed.Portfolio.rem_stock_amount, hq,
            hgt, if_false]
          exact dset_values _ _ _ h.1 (by linarith [not_lt.mp hgt])
        · intro e he
          simp only [IdKeyed.step, IdKeyed.Portfolio.rem_stock_amount, hq,
            hgt, if_false] at he ⊢
          exact mem_idsOf_dset _ _ _ _ (h.2 e he)
  | zero stock =>
    constructor
    · simp only [IdKeyed.step, IdKeyed.Portfolio.set_stock_to_zero]
      exact dset_values _ _ _ h.1 le_rfl
    · intro e he
      simp only [IdKeyed.step, IdKeyed.Portfolio.set_stock_to_zero] at he ⊢
      exact mem_idsOf_dset _ _ _ _ (h.2 e he)
  | reb =>
    rcases hr : IdKeyed.Portfolio.rebalance p with er | r <;>
      simpa [IdKeyed.step, hr] using h

/-! The claims. -/

/-- C1: the spec states that `rebalance` returns one entry per tracked
holding, the entry for `h` being `V * A[h] / P(h) - Q[h]`, and that the
example scenario yields `{A: -6, B: +12}`.  That formula is exactly the
algorithm the source documents (lines 78-100) and it holds under the
id-keyed semantics; but as written `rebalance` evaluates `stock.price()`
although `price` is a property, so on the example state it raises
`TypeError` and returns no mapping at all. -/
theorem c1_rebalance_example_formula :
    Lit.Portfolio.rebalance exPortfolio =
        .error (.typeError "Decimal object is not callable") ∧
      IdKeyed.Portfolio.rebalance exPortfolio =
        .ok [(stockA, -6), (stockB, 12)] := by
  constructor
  · norm_num [Lit.Portfolio.rebalance, Lit.totalPass, Lit.changesPass,
      Lit.Stock.priceCall, Lit.Stock.priceProp, Lit.callDecimal,
      Lit.stockDictGet, Lit.Stock.hashCall, Lit.callStr, alistGet, dget, dset,
      decDiv, exPortfolio, stockA, stockB, tableAB]
  · simp [IdKeyed.Portfolio.rebalance, IdKeyed.Portfolio.rebalanceT,
      IdKeyed.totalPass, IdKeyed.changesPass, IdKeyed.Stock.price, alistGet,
      dget, dset, decDiv, exPortfolio, stockA, stockB, tableAB]
    norm_num

/-- C2: the spec states that construction succeeds iff all fractions are
non-negative and sum exactly to 1, failing with the negative error or the
sum-mismatch error, and initialising every held quantity to zero.  The
negativity check does run first and behaves as claimed; but the sum check
reads `stock_allocation.values().sum()` (line 183), so every allocation
that passes the negativity check raises `AttributeError` and construction
never succeeds (and the collection initialisation at line 189 passes the
keyword `value=` to `dict.fromkeys`, a further `TypeError`).  Under the
id-keyed semantics with the summation performed, the claimed behaviour
holds on the same inputs. -/
theorem c2_portfolio_init_never_succeeds :
    Lit.Portfolio.init [(stockA, 1)] =
        .error (.attributeError "dict_values object has no attribute sum") ∧
      Lit.Portfolio.init [(stockA, -1), (stockB, 2)] =
        .error (.valueError "Allocation percentages must be positive") ∧
      Lit.Portfolio.init [(stockA, 1/2)] =
        .error (.attributeError "dict_values object has no attribute sum") ∧
      IdKeyed.Portfolio.init [(stockA, 1)] =
        .ok ⟨[(stockA, 1)], [(stockA, 0)]⟩ ∧
      IdKeyed.Portfolio.init [(stockA, -1), (stockB, 2)] =
        .error (.valueError "Allocation percentages must be positive") ∧
      IdKeyed.Portfolio.init [(stockA, 1/2)] =
        .error (.valueError "Allocation percentages must add to 1") := by
  refine ⟨?_, ?_, ?_, ?_, ?_, ?_⟩ <;>
    norm_num [Lit.Portfolio.init, Lit.valuesSum, IdKeyed.Portfolio.init,
      anyNeg, sumVals, Lit.fromkeysValueKw]

/-- C3: the spec states that `Stock` construction fails with the unknown
identity error exactly when the identity is absent from the price source,
the check being of the identity itself.  The code instead tests whether the
builtin type object `str` is among the table keys (line 135), so for every
price table keyed by strings — whether or not the identity is present —
construction raises `KeyError`. -/
theorem c3_stock_init_always_raises (stock_id : String)
    (price_table : List (PyKey × Rat))
    (h : PyKey.kTypeStr ∉ price_table.map Prod.fst) :
    Lit.Stock.init stock_id price_table =
      .error (.keyError "This Stock ID is not present in its price table") := by
  simp [Lit.Stock.init, h]

/-- C3 witness: with table `{A: 100, B: 50}` the identity `A` is present,
yet construction raises. -/
theorem c3_stock_init_always_raises_witness :
    Lit.Stock.init "A" tableAB =
      .error (.keyError "This Stock ID is not present in its price table") :=
  c3_stock_init_always_raises "A" tableAB (by simp [tableAB])

/-- C4 counterexample: on the example portfolio the rebalance succeeds and
the price table is queried twice per tracked holding (`A`, `B`, then `A`,
`B` again), not exactly once as claimed. -/
theorem c4_counterexample_price_queried_twice :
    (IdKeyed.Portfolio.rebalanceT exPortfolio).1 =
        .ok [(stockA, -6), (stockB, 12)] ∧
      (IdKeyed.Portfolio.rebalanceT exPortfolio).2 = ["A", "B", "A", "B"] ∧
      List.count "A" (IdKeyed.Portfolio.rebalanceT exPortfolio).2 = 2 ∧
      List.count "B" (IdKeyed.Portfolio.rebalanceT exPortfolio).2 = 2 := by
  have h2 : (IdKeyed.Portfolio.rebalanceT exPortfolio).2 =
      ["A", "B", "A", "B"] := by
    simp [IdKeyed.Portfolio.rebalanceT, IdKeyed.totalPass, IdKeyed.changesPass,
      IdKeyed.Stock.price, alistGet, dget, dset, decDiv, exPortfolio, stockA,
      stockB, tableAB]
  refine ⟨?_, h2, ?_, ?_⟩
  · simp [IdKeyed.Portfolio.rebalanceT, IdKeyed.totalPass, IdKeyed.changesPass,
      IdKeyed.Stock.price, alistGet, dget, dset, decDiv, exPortfolio, stockA,
      stockB, tableAB]
    norm_num
  · rw [h2]; decide
  · rw [h2]; decide

/-- C4 amended: during one successful `rebalance` call, each tracked
holding's price is queried from the price source exactly twice — once in
the total-asset-value sum (line 210) and once more in that holding's
target-quantity division (line 217); the trace of queries is the tracked
ids listed twice over, so a price source that answers differently on
successive queries can make the two passes disagree. -/
theorem c4_amended_each_price_queried_twice (p : Portfolio)
    (r : List (Stock × Rat))
    (h : (IdKeyed.Portfolio.rebalanceT p).1 = .ok r) :
    (IdKeyed.Portfolio.rebalanceT p).2 =
      (p.stock_allocation.map Prod.fst).map Stock.id ++
        (p.stock_allocation.map Prod.fst).map Stock.id := by
  rcases ht : IdKeyed.totalPass p.stock_collection
      (p.stock_allocation.map Prod.fst) with ⟨res1, tr1⟩
  rcases res1 with e | total
  · simp [IdKeyed.Portfolio.rebalanceT, ht] at h
  · rcases hc : IdKeyed.changesPass p.stock_allocation p.stock_collection
        total (p.stock_allocation.map Prod.fst) [] with ⟨res2, tr2⟩
    have hT : (IdKeyed.Portfolio.rebalanceT p).2 = tr1 ++ tr2 := by
      simp [IdKeyed.Portfolio.rebalanceT, ht, hc]
    rcases res2 with e | r2
    · rw [IdKeyed.Portfolio.rebalanceT] at h
      simp only [ht, hc] at h
      simp at h
    · rw [hT, totalPass_ok_trace _ _ _ _ ht,
        changesPass_ok_trace _ _ _ _ _ _ _ hc]

/-- C4 amended witness: on the example portfolio the trace is the tracked
ids twice over. -/
theorem c4_amended_each_price_queried_twice_witness :
    (IdKeyed.Portfolio.rebalanceT exPortfolio).2 =
      (exPortfolio.stock_allocation.map Prod.fst).map Stock.id ++
        (exPortfolio.stock_allocation.map Prod.fst).map Stock.id :=
  c4_amended_each_price_queried_twice exPortfolio [(stockA, -6), (stockB, 12)]
    (by
      simp [IdKeyed.Portfolio.rebalanceT, IdKeyed.totalPass,
        IdKeyed.changesPass, IdKeyed.Stock.price, alistGet, dget, dset, decDiv,
        exPortfolio, stockA, stockB, tableAB]
      norm_num)

/-- C5 counterexample: starting from a portfolio tracking only `A`,
`set_stock_to_zero` on the untracked stock `B` stores a zero entry for
`B` (line 204 is a plain dictionary store), so a holding absent from the
allocation appears in the held quantities. -/
theorem c5_counterexample_untracked_key_inserted :
    idsOf (IdKeyed.runOps pOnlyA [IdKeyed.Op.zero stockB]).stock_collection =
        ["A", "B"] ∧
      idsOf (IdKeyed.runOps pOnlyA [IdKeyed.Op.zero stockB]).stock_allocation =
        ["A"] := by
  constructor <;>
    simp [IdKeyed.runOps, IdKeyed.step, IdKeyed.Portfolio.set_stock_to_zero,
      dset, idsOf, pOnlyA, stockA, stockB]

/-- C5 amended: along every sequence of operations, every held quantity
stays non-negative and every allocation holding stays tracked in the held
quantities; the containment is one-sided, since `set_stock_to_zero` on an
untracked holding inserts it into the held quantities. -/
theorem c5_amended_invariant_preserved (p : Portfolio)
    (ops : List IdKeyed.Op) (h : IdKeyed.Inv p) :
    IdKeyed.Inv (IdKeyed.runOps p ops) := by
  induction ops generalizing p with
  | nil => exact h
  | cons o rest ih => exact ih _ (step_preserves_inv p o h)

/-- C5 amended witness: the invariant holds after inserting `B` untracked. -/
theorem c5_amended_invariant_preserved_witness :
    IdKeyed.Inv (IdKeyed.runOps pOnlyA [IdKeyed.Op.zero stockB]) :=
  c5_amended_invariant_preserved pOnlyA [IdKeyed.Op.zero stockB]
    (by constructor <;> simp [pOnlyA, idsOf])

/-- C6 counterexample: with 10 of `A` held, removing the amount `-1` does
not fail with the invalid-amount error the claim requires — there is no
negativity check in `rem_stock_amount` (lines 198-201) — it succeeds and
raises the held quantity to 11. -/
theorem c6_counterexample_negative_amount_accepted :
    (IdKeyed.Portfolio.rem_stock_amount pTenA stockA (-1)).1 = .ok () ∧
      dget (IdKeyed.Portfolio.rem_stock_amount pTenA
        stockA (-1)).2.stock_collection stockA = some 11 := by
  constructor <;>
    norm_num [IdKeyed.Portfolio.rem_stock_amount, dget, dset, pTenA, stockA]

/-- C6 amended: for a tracked holding with quantity `q`,
`rem_stock_amount` fails with the insufficient-holding error exactly when
the amount exceeds `q`, and otherwise — negative amounts included, since no
negativity check exists — subtracts the amount; amount `q` thus leaves
exactly zero, and amount `q + 1` fails. -/
theorem c6_amended_rem_characterisation (p : Portfolio) (stock : Stock)
    (amount q : Rat) (h : dget p.stock_collection stock = some q) :
    (q < amount →
        IdKeyed.Portfolio.rem_stock_amount p stock amount =
          (.error (.valueError "Cannot remove more stock than what we have"),
            p)) ∧
      (amount ≤ q →
        IdKeyed.Portfolio.rem_stock_amount p stock amount =
          (.ok (), ⟨p.stock_allocation,
            dset p.stock_collection stock (q - amount)⟩)) := by
  constructor
  · intro hlt
    simp [IdKeyed.Portfolio.rem_stock_amount, h, hlt]
  · intro hle
    simp [IdKeyed.Portfolio.rem_stock_amount, h, not_lt.mpr hle]

/-- C6 amended witness: removing exactly the held quantity succeeds and
leaves zero, and removing one more fails. -/
theorem c6_amended_rem_characterisation_witness :
    IdKeyed.Portfolio.rem_stock_amount pTenA stockA 10 =
        (.ok (), ⟨pTenA.stock_allocation,
          dset pTenA.stock_collection stockA 0⟩) ∧
      IdKeyed.Portfolio.rem_stock_amount pTenA stockA 11 =
        (.error (.valueError "Cannot remove more stock than what we have"),
          pTenA) := by
  have h := c6_amended_rem_characterisation pTenA stockA 10 10
    (by simp [dget, pTenA, stockA])
  have h11 := c6_amended_rem_characterisation pTenA stockA 11 10
    (by simp [dget, pTenA, stockA])
  refine ⟨?_, h11.1 (by norm_num)⟩
  simpa using h.2 le_rfl

/-- C8: whenever one of the mutating operations or `rebalance` raises, the
portfolio state is left exactly as it was — each method finishes its
validation and reads before its single store, and `rebalance` never writes
to the portfolio.  (Failed construction creates no object, so it has no
prior state to disturb.) -/
theorem c8_failed_call_leaves_state_unchanged (p : Portfolio)
    (op : IdKeyed.Op) (e : PyError)
    (h : (IdKeyed.step p op).1 = .error e) : (IdKeyed.step p op).2 = p := by
  cases op with
  | add stock amount =>
    by_cases hneg : amount < 0
    · simp [IdKeyed.step, IdKeyed.Portfolio.add_stock_amount, hneg]
    · rcases hq : dget p.stock_collection stock with _ | q
      · simp [IdKeyed.step, IdKeyed.Portfolio.add_stock_amount, hneg, hq]
      · simp [IdKeyed.step, IdKeyed.Portfolio.add_stock_amount, hneg, hq] at h
  | rem stock amount =>
    rcases hq : dget p.stock_collection stock with _ | q
    · simp [IdKeyed.step, IdKeyed.Portfolio.rem_stock_amount, hq]
    · by_cases hgt : q < amount
      · simp [IdKeyed.step, IdKeyed.Portfolio.rem_stock_amount, hq, hgt]
      · simp [IdKeyed.step, IdKeyed.Portfolio.rem_stock_amount, hq, hgt] at h
  | zero stock =>
    simp [IdKeyed.step, IdKeyed.Portfolio.set_stock_to_zero] at h
  | reb =>
    rcases hr : IdKeyed.Portfolio.rebalance p with er | r <;>
      simp [IdKeyed.step, hr]

/-- C8 witness: the failing removal of 11 from a holding of 10 leaves the
state untouched. -/
theorem c8_failed_call_leaves_state_unchanged_witness :
    (IdKeyed.step pTenA (IdKeyed.Op.rem stockA 11)).2 = pTenA :=
  c8_failed_call_leaves_state_unchanged pTenA (IdKeyed.Op.rem stockA 11)
    (.valueError "Cannot remove more stock than what we have")
    (by norm_num [IdKeyed.step, IdKeyed.Portfolio.rem_stock_amount, dget,
      pTenA, stockA])

/-- C9: the spec states that a tracked holding priced zero makes
`rebalance` fail with the division error, and that with all prices nonzero
the division never raises.  That is the behaviour of the division itself
(`Decimal` raises on a zero divisor) and it holds under the id-keyed
semantics; but the code as written raises `TypeError` at the first
`stock.price()` call, zero-priced holding or not, so the claimed division
error is never reached. -/
theorem c9_zero_price_division :
    Lit.Portfolio.rebalance pZero =
        .error (.typeError "Decimal object is not callable") ∧
      IdKeyed.Portfolio.rebalance pZero = .error .divisionByZero ∧
      IdKeyed.Portfolio.rebalance pHalf = .ok [(stockA, -5), (stockB, 10)] := by
  refine ⟨?_, ?_, ?_⟩
  · norm_num [Lit.Portfolio.rebalance, Lit.totalPass, Lit.changesPass,
      Lit.Stock.priceCall, Lit.Stock.priceProp, Lit.callDecimal,
      Lit.stockDictGet, Lit.Stock.hashCall, Lit.callStr, alistGet, dget, dset,
      decDiv, pZero, stockZA, stockZB, tableZeroB]
  · simp [IdKeyed.Portfolio.rebalance, IdKeyed.Portfolio.rebalanceT,
      IdKeyed.totalPass, IdKeyed.changesPass, IdKeyed.Stock.price, alistGet,
      dget, dset, decDiv, pZero, stockZA, stockZB, tableZeroB]
  · simp [IdKeyed.Portfolio.rebalance, IdKeyed.Portfolio.rebalanceT,
      IdKeyed.totalPass, IdKeyed.changesPass, IdKeyed.Stock.price, alistGet,
      dget, dset, decDiv, pHalf, stockA, stockB, tableAB]
    norm_num

/-- C10: the spec implies that a freshly constructed portfolio (all held
quantities zero, all prices positive) rebalances to a zero delta for every
tracked holding.  Under the id-keyed semantics the example allocation
constructs exactly the all-zero portfolio and rebalancing it returns zero
for both holdings; but the code as written cannot construct a portfolio at
all, and on the fresh state `rebalance` raises `TypeError` at the first
`stock.price()` call instead of returning the zero deltas. -/
theorem c10_fresh_portfolio_zero_deltas :
    IdKeyed.Portfolio.init allocEx = .ok freshPortfolio ∧
      Lit.Portfolio.rebalance freshPortfolio =
        .error (.typeError "Decimal object is not callable") ∧
      IdKeyed.Portfolio.rebalance freshPortfolio =
        .ok [(stockA, 0), (stockB, 0)] := by
  refine ⟨?_, ?_, ?_⟩
  · norm_num [IdKeyed.Portfolio.init, anyNeg, sumVals, allocEx,
      freshPortfolio]
  · norm_num [Lit.Portfolio.rebalance, Lit.totalPass, Lit.changesPass,
      Lit.Stock.priceCall, Lit.Stock.priceProp, Lit.callDecimal,
      Lit.stockDictGet, Lit.Stock.hashCall, Lit.callStr, alistGet, dget, dset,
      decDiv, freshPortfolio, allocEx, stockA, stockB, tableAB]
  · simp [IdKeyed.Portfolio.rebalance, IdKeyed.Portfolio.rebalanceT,
      IdKeyed.totalPass, IdKeyed.changesPass, IdKeyed.Stock.price, alistGet,
      dget, dset, decDiv, freshPortfolio, allocEx, stockA, stockB, tableAB]

/-- C7: the spec states two `Stock`s are equal iff their identities are
equal, with the identity also serving as the hash key.  As written,
`__eq__` and `__hash__` call `self.id()` although `id` is a property
(lines 160, 165), so both raise `TypeError` on every pair of stocks:
equality never evaluates to anything, equal identities or not, and stocks
cannot serve as dictionary keys at all. -/
theorem c7_stock_eq_and_hash_always_raise :
    (∀ s v : Stock, Lit.Stock.eqCall s v =
        .error (.typeError "str object is not callable")) ∧
      ∀ s : Stock, Lit.Stock.hashCall s =
        .error (.typeError "str object is not callable") :=
  ⟨fun _ _ => rfl, fun _ => rfl⟩

end PortfolioExercise
